import Mathlib

/-!
Verification development for the real-time telephony audio bridge:
codec conversion (G.711 mu-law and PCM), base64 transport framing,
audio chunking and resampling, the voice-activity-detection (VAD)
state machine, and the two WebSocket bridge pumps
(`TwilioVoiceServer.handle_call` and the Twilio/ElevenLabs realtime
bridge).

Conventions of the shallow embedding:
* 16-bit signed PCM buffers are `List Int` (one entry per sample; the
  byte-level `tobytes`/`frombuffer` packing is elided, samples are
  modelled directly).
* Byte strings (mu-law payloads, base64 text) are `List Nat`, each
  entry a byte value.
* Python floats (wall-clock times from `time.time()`, speech
  probabilities, thresholds) are modelled as rationals `ℚ`.
* Python exceptions are modelled with `Except String`.
-/

namespace CxcBridge

/-! ### G.711 mu-law codec (semantics of CPython `audioop.lin2ulaw` /
`audioop.ulaw2lin` with width 2, the functions used by
`AudioProcessor.convert_to_mulaw` and `AudioProcessor.convert_from_mulaw`). -/

/-- Segment/quantization step of CPython `st_14linear2ulaw`, applied to the
biased clipped magnitude `p`. The C code computes the segment `seg` as the
index of the first entry of `seg_uend = [0x3F,...,0x1FFF]` that is `≥ p`
(8 when none is), then combines `seg <<< 4` with the quantization bits
`(p >>> (seg+1)) &&& 0xF`; for `seg = 8` it uses the fixed code `0x7F`.
Shifts and masks are written as division/multiplication/mod by powers of
two. The result is always at most `0x7F = 127`. -/
def ulawCode (p : Nat) : Nat :=
  if p ≤ 63 then 0 * 16 + p / 2 % 16
  else if p ≤ 127 then 1 * 16 + p / 4 % 16
  else if p ≤ 255 then 2 * 16 + p / 8 % 16
  else if p ≤ 511 then 3 * 16 + p / 16 % 16
  else if p ≤ 1023 then 4 * 16 + p / 32 % 16
  else if p ≤ 2047 then 5 * 16 + p / 64 % 16
  else if p ≤ 4095 then 6 * 16 + p / 128 % 16
  else if p ≤ 8191 then 7 * 16 + p / 256 % 16
  else 127

/-- CPython `st_14linear2ulaw`: encode one 14-bit sample (the caller passes
`sample >> 2`). The sign picks the mask (`0x7F` for negative, `0xFF` for
non-negative), the magnitude is clipped to `CLIP = 8159` and biased by
`BIAS >> 2 = 33`, and the code word is complemented with the mask. Since
the uncomplemented code word is at most `0x7F`, `code ^^^ mask` equals
`mask - code`, which is how the complement is written here. -/
def st_14linear2ulaw (pcmVal : Int) : Nat :=
  let mask : Nat := if pcmVal < 0 then 127 else 255
  let m0 : Int := if pcmVal < 0 then -pcmVal else pcmVal
  let m1 : Int := if 8159 < m0 then 8159 else m0
  mask - ulawCode (m1 + 33).toNat

/-- CPython `st_ulaw2linear16` (the formula generating audioop's 256-entry
decode table): complement the byte, extract quantization bits and segment,
rebuild the biased magnitude and apply the sign. Validated sample-exactly
against `audioop.ulaw2lin` for all 256 byte values. -/
def st_ulaw2linear16 (uByte : Nat) : Int :=
  let u : Nat := 255 - uByte % 256
  let t : Int := ((u % 16) * 8 + 132) * 2 ^ (u / 16 % 8)
  if 128 ≤ u then 132 - t else t - 132

/-- `audioop.lin2ulaw(fragment, 2)`: per 16-bit sample, feed `sample >> 2`
(arithmetic shift, i.e. floor division by 4, `Int.ediv`) to
`st_14linear2ulaw`. -/
def lin2ulaw (pcm : List Int) : List Nat :=
  pcm.map fun x => st_14linear2ulaw (Int.ediv x 4)

/-- `audioop.ulaw2lin(fragment, 2)`: per byte table lookup. -/
def ulaw2lin (mulaw : List Nat) : List Int :=
  mulaw.map st_ulaw2linear16

/-- Modelled from the spec: `audioop.ratecv` (stateful linear-interpolation
rate conversion, section 4.1 of the spec: resampling between the telephone
rate and the AI-service rate). The numeric content of the converter is not
under `src/`; only the output length (`len * to_rate / from_rate`) and the
fact that a frame gets converted matter to the theorems below, none of
which inspect the interpolated sample values. -/
def ratecvModel (pcm : List Int) (from_rate to_rate : Nat) : List Int :=
  (List.range (pcm.length * to_rate / from_rate)).map fun i =>
    (pcm.drop (i * from_rate / to_rate)).headD 0

/-- `AudioProcessor.convert_to_mulaw` on an int16 buffer: resample via
`audioop.ratecv` when the rates differ, then mu-law encode. (The
float-to-int16 dtype conversion branch is for float inputs only and is
outside this int16 embedding.) -/
def convert_to_mulaw (audio_data : List Int) (sample_rate target_rate : Nat) :
    List Nat :=
  lin2ulaw (if sample_rate ≠ target_rate
            then ratecvModel audio_data sample_rate target_rate
            else audio_data)

/-- `AudioProcessor.convert_from_mulaw`: mu-law decode to int16 samples.
The `sample_rate` parameter is accepted and unused, exactly as in the
source. -/
def convert_from_mulaw (mulaw_data : List Nat) (sample_rate : Nat) : List Int :=
  ulaw2lin mulaw_data

/-- Modelled from the spec: `scipy.signal.resample(audio, num)` (band-limited
interpolation, section 4.1 of the spec). Only called on the rate-changing
branch of `resample_audio`; every theorem below about `resample_audio`
exercises the equal-rate branch, and the theorems that cross this branch
never inspect the interpolated sample values, only the buffer produced. -/
def signalResampleModel (audio : List Int) (num : Nat) : List Int :=
  (List.range num).map fun i => (audio.drop (i * audio.length / num)).headD 0

/-- `AudioProcessor.resample_audio`: identity when the rates are equal,
otherwise resample to `int(len(audio) * to_rate / from_rate)` samples. -/
def resample_audio (audio_data : List Int) (from_rate to_rate : Nat) :
    List Int :=
  if from_rate = to_rate then audio_data
  else signalResampleModel audio_data (audio_data.length * to_rate / from_rate)

/-- The slicing loop of `AudioProcessor.chunk_audio`
(`for i in range(0, len(audio_data), chunk_size_samples)`), written as
structural recursion on a fuel argument; `fuel = audio_data.length` is
enough iterations whenever `1 ≤ step`, which is the only way the loop is
reached (Python `range` raises `ValueError` on step 0). -/
def chunkGo (step : Nat) : Nat → List Int → List (List Int)
  | _, [] => []
  | 0, _ => []
  | fuel + 1, l => l.take step :: chunkGo step fuel (l.drop step)

/-- `AudioProcessor.chunk_audio`: `chunk_size_samples =
int(sample_rate * chunk_size_ms / 1000)`; when that is zero, Python's
`range(0, n, 0)` raises `ValueError`, modelled as `none`. -/
def chunk_audio (audio_data : List Int) (chunk_size_ms sample_rate : Nat) :
    Option (List (List Int)) :=
  let step := sample_rate * chunk_size_ms / 1000
  if step = 0 then none
  else some (chunkGo step audio_data.length audio_data)

/-! ### Base64 transport framing (semantics of CPython
`base64.b64encode` / `base64.b64decode` with `validate=False`, i.e.
`binascii.b2a_base64` / non-strict `binascii.a2b_base64`; validated
against CPython 3.11 on exhaustive random inputs). -/

/-- `table_a2b_base64`: value of a base64 alphabet byte, `none` for bytes
outside the alphabet (which non-strict decoding skips). -/
def b64Table (c : Nat) : Option Nat :=
  if 65 ≤ c ∧ c ≤ 90 then some (c - 65)
  else if 97 ≤ c ∧ c ≤ 122 then some (c - 71)
  else if 48 ≤ c ∧ c ≤ 57 then some (c + 4)
  else if c = 43 then some 62
  else if c = 47 then some 63
  else none

/-- `table_b2a_base64`: alphabet byte of a 6-bit value. -/
def encChar (v : Nat) : Nat :=
  if v < 26 then 65 + v
  else if v < 52 then 97 + (v - 26)
  else if v < 62 then 48 + (v - 52)
  else if v = 62 then 43
  else 47

/-- `binascii.b2a_base64` without trailing newline: groups of three bytes
become four alphabet bytes; a tail of one or two bytes is padded with
`'=' = 61`. -/
def b2aLoop : List Nat → List Nat
  | a :: b :: c :: rest =>
      encChar (a / 4) :: encChar (a % 4 * 16 + b / 16) ::
      encChar (b % 16 * 4 + c / 64) :: encChar (c % 64) :: b2aLoop rest
  | [a, b] =>
      [encChar (a / 4), encChar (a % 4 * 16 + b / 16), encChar (b % 16 * 4), 61]
  | [a] => [encChar (a / 4), encChar (a % 4 * 16), 61, 61]
  | [] => []

/-- Loop state of non-strict `binascii.a2b_base64`: position within the
current quad, the pending bits, the count of consecutive padding
characters, and the bytes produced so far. -/
structure A2bState where
  quadPos : Nat
  leftchar : Nat
  pads : Nat
  out : List Nat

/-- Non-strict `binascii.a2b_base64` (CPython 3.11): bytes outside the
alphabet are skipped; `'='` at quad position ≥ 2 that completes a pad
sequence ends decoding successfully; input ending mid-quad is an error
(`binascii.Error`), with the distinct message for a single leftover data
character. -/
def a2bLoop : List Nat → A2bState → Except String (List Nat)
  | [], st =>
      if st.quadPos = 0 then .ok st.out
      else if st.quadPos = 1 then .error "invalid base64 length"
      else .error "incorrect padding"
  | c :: cs, st =>
      if c = 61 then
        if 2 ≤ st.quadPos ∧ 4 ≤ st.quadPos + (st.pads + 1) then .ok st.out
        else a2bLoop cs { st with pads := st.pads + 1 }
      else
        match b64Table c with
        | none => a2bLoop cs st
        | some v =>
          match st.quadPos with
          | 0 => a2bLoop cs { st with quadPos := 1, leftchar := v, pads := 0 }
          | 1 => a2bLoop cs { quadPos := 2, leftchar := v % 16, pads := 0,
                              out := st.out ++ [st.leftchar * 4 + v / 16] }
          | 2 => a2bLoop cs { quadPos := 3, leftchar := v % 4, pads := 0,
                              out := st.out ++ [st.leftchar * 16 + v / 4] }
          | _ => a2bLoop cs { quadPos := 0, leftchar := 0, pads := 0,
                              out := st.out ++ [st.leftchar * 64 + v] }

/-- `base64.b64decode(s)` with default `validate=False`. -/
def b64decode (s : List Nat) : Except String (List Nat) :=
  a2bLoop s ⟨0, 0, 0, []⟩

/-- Shadow of `a2bLoop` that tracks only quad position and pad count:
whether non-strict base64 decoding fails depends only on the shape of the
character stream, not on the decoded bytes. -/
def b64ErrCond : List Nat → Nat → Nat → Bool
  | [], q, _ => decide (q = 1 ∨ q = 2 ∨ q = 3)
  | c :: cs, q, pads =>
      if c = 61 then
        if 2 ≤ q ∧ 4 ≤ q + (pads + 1) then false
        else b64ErrCond cs q (pads + 1)
      else
        match b64Table c with
        | none => b64ErrCond cs q pads
        | some _ => b64ErrCond cs ((q + 1) % 4) 0

/-- `AudioProcessor.encode_mulaw_base64`: `base64.b64encode(...)` (the
`.decode('utf-8')` step is elided, the ASCII bytes are returned). -/
def encode_mulaw_base64 (mulaw_data : List Nat) : List Nat :=
  b2aLoop mulaw_data

/-- `AudioProcessor.decode_mulaw_base64`: `base64.b64decode(base64_str)`. -/
def decode_mulaw_base64 (base64_str : List Nat) : Except String (List Nat) :=
  b64decode base64_str

/-! ### Voice activity detector (`vad/voice_activity_detector.py`). -/

/-- The three VAD backends. -/
inductive VadMethod
  | silero
  | webrtc
  | energy
deriving DecidableEq

/-- State of a `VoiceActivityDetector` instance: the constructor
configuration, the four state-tracking fields set in `__init__`, and
the energy-backend fields set in `_init_energy` (absent attributes of
the other backends are modelled by their initial values). -/
structure VadState where
  method : VadMethod
  threshold : ℚ
  min_speech_duration_ms : ℚ
  min_silence_duration_ms : ℚ
  sample_rate : Nat
  speech_started : Bool
  speech_start_time : Option ℚ
  last_speech_time : Option ℚ
  silence_start_time : Option ℚ
  energy_threshold : Option ℚ
  energy_history : List ℚ
deriving DecidableEq

/-- `VoiceActivityDetector.__init__`: store the configuration and clear
the state tracking fields. -/
def initVad (method : VadMethod) (threshold min_speech min_silence : ℚ)
    (sample_rate : Nat) : VadState :=
  { method := method
    threshold := threshold
    min_speech_duration_ms := min_speech
    min_silence_duration_ms := min_silence
    sample_rate := sample_rate
    speech_started := false
    speech_start_time := none
    last_speech_time := none
    silence_start_time := none
    energy_threshold := none
    energy_history := [] }

/-- `VoiceActivityDetector._update_state(speech_prob)`; `current_time` is
the value of `time.time()` at the call, made an explicit argument. The
speech branch first records `last_speech_time` and nulls
`silence_start_time` (unconditionally), then either arms
`speech_start_time` on the first above-threshold chunk or promotes to
`speech_started` once the minimum speech duration has elapsed; the
Python's sequence of field assignments is written as the cumulative
record update of each path. -/
def update_state (s : VadState) (current_time speech_prob : ℚ) : VadState :=
  if s.threshold ≤ speech_prob then
    if s.speech_started then
      { s with last_speech_time := some current_time,
               silence_start_time := none }
    else
      match s.speech_start_time with
      | none =>
          { s with last_speech_time := some current_time,
                   silence_start_time := none,
                   speech_start_time := some current_time }
      | some t0 =>
          if s.min_speech_duration_ms ≤ (current_time - t0) * 1000 then
            { s with last_speech_time := some current_time,
                     silence_start_time := none,
                     speech_started := true }
          else
            { s with last_speech_time := some current_time,
                     silence_start_time := none }
  else
    if s.speech_started ∧ s.silence_start_time = none then
      { s with silence_start_time := some current_time }
    else s

/-- `VoiceActivityDetector.is_speech_started`. -/
def is_speech_started (s : VadState) : Bool :=
  s.speech_started

/-- `VoiceActivityDetector.is_speech_ended`; `current_time` is the value
of `time.time()` at the call. -/
def is_speech_ended (s : VadState) (current_time : ℚ) : Bool :=
  if s.speech_started = false then false
  else
    match s.silence_start_time with
    | none => false
    | some t => decide (s.min_silence_duration_ms ≤ (current_time - t) * 1000)

/-- `VoiceActivityDetector.reset`: clear the speech flag and the three
timestamps; for the energy backend additionally clear the energy history
and dynamic threshold. -/
def reset (s : VadState) : VadState :=
  let s1 := { s with speech_started := false
                     speech_start_time := none
                     last_speech_time := none
                     silence_start_time := none }
  match s.method with
  | .energy => { s1 with energy_history := [], energy_threshold := none }
  | _ => s1

/-- `np.median` of a list: middle element of the ascending sort (mean of
the two middle elements for even length). -/
def npMedian (l : List ℚ) : ℚ :=
  let s := l.mergeSort fun a b => decide (a ≤ b)
  if l.length % 2 = 1 then s.getD (l.length / 2) 0
  else (s.getD (l.length / 2 - 1) 0 + s.getD (l.length / 2) 0) / 2

/-- `np.max` of a (nonempty) list. -/
def npMax (l : List ℚ) : ℚ :=
  l.foldl max (l.headD 0)

/-- `np.min` of a (nonempty) list. -/
def npMin (l : List ℚ) : ℚ :=
  l.foldl min (l.headD 0)

/-- `self.energy_history_size` set by `_init_energy`. -/
def energy_history_size : Nat := 50

/-- `VoiceActivityDetector._process_energy`: append the chunk's RMS energy
to the rolling history (popping the oldest entry past the size bound),
recompute the dynamic threshold (median + threshold * range once at least
10 samples exist, fixed 0.01 before that), derive the binary speech
probability, and update the state machine. The RMS value itself
(`sqrt(mean(chunk ** 2))`, irrational in general) is taken as the
argument `rms_energy`. Returns the new state and the probability. -/
def process_energy (s : VadState) (current_time rms_energy : ℚ) :
    VadState × ℚ :=
  let hist0 := s.energy_history ++ [rms_energy]
  let hist := if energy_history_size < hist0.length then hist0.tail else hist0
  let thr : ℚ :=
    if 10 ≤ hist.length then
      npMedian hist + s.threshold * (npMax hist - npMin hist)
    else 1 / 100
  let speech_prob : ℚ := if thr < rms_energy then 1 else 0
  let s1 := { s with energy_history := hist, energy_threshold := some thr }
  (update_state s1 current_time speech_prob, speech_prob)

/-- A sequence of `_update_state` advances driven by
`process_audio_chunk` calls: each trace element is the pair
(`time.time()` at the call, speech probability computed by the backend
for that chunk). -/
def runTrace (s : VadState) (tr : List (ℚ × ℚ)) : VadState :=
  tr.foldl (fun a e => update_state a e.1 e.2) s

/-! ### `TwilioVoiceServer.handle_call` (`twilio/twilio_voice_server.py`):
session state and the `media` / `start` / `stop` event handling of the
inbound pump. -/

/-- `TWILIO_SAMPLE_RATE` (8 kHz mu-law). -/
def TWILIO_SAMPLE_RATE : Nat := 8000

/-- `VAD_SAMPLE_RATE` (VAD runs at 16 kHz). -/
def VAD_SAMPLE_RATE : Nat := 16000

/-- Per-connection state of `handle_call`: the STT audio buffer, the
512-sample VAD accumulation buffer, the VAD instance (`none` until the
`start` event creates it), the turn counter, and the list of utterance
buffers handed to `_process_turn` so far. -/
structure CallState where
  audio_buffer : List Int
  vad_chunk_buffer : List Int
  vad : Option VadState
  turn_counter : Nat
  processed_turns : List (List Int)
deriving DecidableEq

/-- Connection-scoped initialisation at the top of `handle_call`. -/
def initialCallState : CallState :=
  { audio_buffer := []
    vad_chunk_buffer := []
    vad := none
    turn_counter := 0
    processed_turns := [] }

/-- The VAD created by the `start` handler, with the server defaults:
`threshold=0.5`, VAD-default `min_speech_duration_ms=250`, server default
`min_silence_duration_ms=700`, `sample_rate=VAD_SAMPLE_RATE`. -/
def freshServerVad (method : VadMethod) : VadState :=
  initVad method (1 / 2) 250 700 VAD_SAMPLE_RATE

/-- The `while len(vad_chunk_buffer) >= VAD_CHUNK_SIZE` loop: feed
512-sample chunks to `process_audio_chunk`, keeping the remainder.
`probOf` models the backend's per-chunk speech probability (the Silero
model inference for the server's default method); `now` is the wall
clock during the loop. Structural recursion on fuel;
`fuel = buffer length` bounds the iteration count. -/
def vadLoop (probOf : List Int → ℚ) (now : ℚ) :
    Nat → VadState → List Int → VadState × List Int
  | 0, v, buf => (v, buf)
  | fuel + 1, v, buf =>
      if 512 ≤ buf.length then
        vadLoop probOf now fuel
          (update_state v now (probOf (buf.take 512))) (buf.drop 512)
      else (v, buf)

/-- The `media` event handler of `handle_call`: skip when no VAD exists
yet; otherwise (inside `try`) base64-decode the payload, mu-law decode,
resample 8 kHz to 16 kHz, extend the STT audio buffer and the VAD chunk
buffer, run the VAD loop, and on `is_speech_ended` dispatch the audio
buffer as a turn, reset the VAD and clear both buffers. Any exception
(in this model, only the base64 decode can fail) is caught, the frame is
dropped and the state is unchanged. -/
def handleMedia (probOf : List Int → ℚ) (now : ℚ) (st : CallState)
    (payload : List Nat) : CallState :=
  match st.vad with
  | none => st
  | some vad0 =>
    match b64decode payload with
    | .error _ => st
    | .ok mulaw_audio =>
      let pcm0 := convert_from_mulaw mulaw_audio TWILIO_SAMPLE_RATE
      let pcm := if TWILIO_SAMPLE_RATE ≠ VAD_SAMPLE_RATE
                 then resample_audio pcm0 TWILIO_SAMPLE_RATE VAD_SAMPLE_RATE
                 else pcm0
      let audioBuf := st.audio_buffer ++ pcm
      let chunkBuf := st.vad_chunk_buffer ++ pcm
      let vr := vadLoop probOf now chunkBuf.length vad0 chunkBuf
      if is_speech_ended vr.1 now then
        { audio_buffer := []
          vad_chunk_buffer := []
          vad := some (reset vr.1)
          turn_counter := st.turn_counter + 1
          processed_turns := st.processed_turns ++ [audioBuf] }
      else
        { st with audio_buffer := audioBuf
                  vad_chunk_buffer := vr.2
                  vad := some vr.1 }

/-- Inbound WebSocket events of the Twilio media-stream protocol (the
fields of `start` not used by the embedding are elided). -/
inductive TwilioEvent
  | start
  | media (payload : List Nat)
  | stop

/-- One iteration of the `async for message in websocket` loop of
`handle_call`; the `Bool` is the broken-out-of-the-loop flag (`stop`
breaks, after which no further events are handled). -/
def handleEvent (probOf : List Int → ℚ) (now : ℚ) (method : VadMethod)
    (st : CallState × Bool) (ev : TwilioEvent) : CallState × Bool :=
  if st.2 then st
  else
    match ev with
    | .start =>
        ({ st.1 with vad := some (freshServerVad method), audio_buffer := [] },
         false)
    | .media payload => (handleMedia probOf now st.1 payload, false)
    | .stop => (st.1, true)

/-- The inbound pump of `handle_call` over a finite event trace. -/
def twilioPump (probOf : List Int → ℚ) (now : ℚ) (method : VadMethod)
    (st : CallState × Bool) (events : List TwilioEvent) : CallState × Bool :=
  events.foldl (handleEvent probOf now method) st

/-! ### The Twilio-to-ElevenLabs pump of the realtime bridge
(`tests/outbound_calling/realtime_server.py`,
`TwilioElevenLabsBridge.handle_twilio_connection.twilio_to_elevenlabs`). -/

/-- State of the realtime bridge's Twilio-to-ElevenLabs pump: the learned
stream id and the PCM chunks sent to the ElevenLabs socket as
`user_audio_chunk` messages (their JSON/base64 wrapping elided). -/
structure BridgeState where
  stream_sid : Option Nat
  sent_chunks : List (List Int)
deriving DecidableEq

/-- Initial bridge pump state (`stream_sid = None`). -/
def rtInit : BridgeState :=
  { stream_sid := none, sent_chunks := [] }

/-- One iteration of `twilio_to_elevenlabs`: `start` records the stream
sid; `media` base64-decodes (an exception here is NOT caught and
terminates the coroutine, modelled by `.error`), mu-law decodes,
resamples 8 kHz to 16 kHz via `audioop.ratecv` and sends the chunk;
`stop` breaks the loop (the `Bool` flag). -/
def rtStep (st : BridgeState) (ev : TwilioEvent) :
    Except String (BridgeState × Bool) :=
  match ev with
  | .start => .ok ({ st with stream_sid := some 0 }, false)
  | .media payload =>
      match b64decode payload with
      | .error e => .error e
      | .ok mulaw_bytes =>
          let pcm := ulaw2lin mulaw_bytes
          let pcm16 := ratecvModel pcm 8000 16000
          .ok ({ st with sent_chunks := st.sent_chunks ++ [pcm16] }, false)
  | .stop => .ok (st, true)

/-- The realtime bridge pump over a finite event trace: an uncaught
exception aborts the whole loop (no later event is processed). -/
def realtimePump (st : BridgeState) : List TwilioEvent → Except String BridgeState
  | [] => .ok st
  | ev :: evs =>
      match rtStep st ev with
      | .error e => .error e
      | .ok (st2, true) => .ok st2
      | .ok (st2, false) => realtimePump st2 evs

/-! ### Helper lemmas about the chunking loop. -/

lemma chunkGo_flatten (step : Nat) (hstep : 1 ≤ step) :
    ∀ fuel l, l.length ≤ fuel → (chunkGo step fuel l).flatten = l := by
  intro fuel
  induction fuel with
  | zero =>
      intro l h
      have hl : l = [] := by
        cases l with
        | nil => rfl
        | cons x xs => simp at h
      subst hl
      rfl
  | succ n ih =>
      intro l h
      cases l with
      | nil => rfl
      | cons x xs =>
          have hrec : (List.drop step (x :: xs)).length ≤ n := by
            simp only [List.length_drop, List.length_cons]
            simp only [List.length_cons] at h
            omega
          simp only [chunkGo, List.flatten_cons, ih _ hrec,
            List.take_append_drop]

lemma chunkGo_mem_length_le (step : Nat) :
    ∀ fuel l, ∀ c ∈ chunkGo step fuel l, c.length ≤ step := by
  intro fuel
  induction fuel with
  | zero =>
      intro l c hc
      cases l <;> simp [chunkGo] at hc
  | succ n ih =>
      intro l c hc
      cases l with
      | nil => simp [chunkGo] at hc
      | cons x xs =>
          simp only [chunkGo, List.mem_cons] at hc
          rcases hc with hc | hc
          · subst hc
            simp [List.length_take]
          · exact ih _ c hc

lemma chunkGo_ne_nil (step n : Nat) (hn : 1 ≤ n) (y : Int) (ys : List Int) :
    chunkGo step n (y :: ys) ≠ [] := by
  cases n with
  | zero => omega
  | succ m => simp [chunkGo]

lemma chunkGo_dropLast_length (step : Nat) (hstep : 1 ≤ step) :
    ∀ fuel l, l.length ≤ fuel →
      ∀ c ∈ (chunkGo step fuel l).dropLast, c.length = step := by
  intro fuel
  induction fuel with
  | zero =>
      intro l h c hc
      have hl : l = [] := by
        cases l with
        | nil => rfl
        | cons x xs => simp at h
      subst hl
      simp [chunkGo] at hc
  | succ n ih =>
      intro l h c hc
      cases l with
      | nil => simp [chunkGo] at hc
      | cons x xs =>
          simp only [chunkGo] at hc
          cases hdrop : List.drop step (x :: xs) with
          | nil =>
              rw [hdrop] at hc
              simp [chunkGo] at hc
          | cons y ys =>
              have hlen : step < (x :: xs).length := by
                by_contra hle
                push_neg at hle
                have hnil : List.drop step (x :: xs) = [] :=
                  List.drop_eq_nil_of_le hle
                rw [hnil] at hdrop
                exact (List.cons_ne_nil y ys) hdrop.symm
              have hrec : (y :: ys).length ≤ n := by
                have h2 := congrArg List.length hdrop
                simp only [List.length_drop, List.length_cons] at h2 h ⊢
                omega
              have hn1 : 1 ≤ n := le_trans (by simp) hrec
              rw [hdrop] at hc
              rw [List.dropLast_cons_of_ne_nil (chunkGo_ne_nil step n hn1 y ys)]
                at hc
              rcases List.mem_cons.mp hc with hc | hc
              · subst hc
                simp only [List.length_take]
                omega
              · exact ih (y :: ys) hrec c hc

/-! ### Claim theorems: chunking (C3), resampling (C4), VAD reset (C6),
speech-ended guard (C10). -/

/-- C3 (counterexample): with `chunk_size_ms = 1 > 0` and
`sample_rate = 1`, `chunk_size_samples = int(1 * 1 / 1000) = 0` and
Python's `range(0, len, 0)` raises `ValueError` — `chunk_audio` produces
no chunk list at all, so no concatenation of its chunks reproduces the
buffer, contradicting the claim's quantification over every positive
chunk duration and every sample rate. -/
theorem chunk_audio_zero_step_counterexample :
    ¬ ∃ cs, chunk_audio [1, 2, 3] 1 1 = some cs ∧ cs.flatten = [1, 2, 3] := by
  rintro ⟨cs, h, -⟩
  simp [chunk_audio] at h

/-- C3 (amended): whenever `chunk_audio` returns chunks at all — that is,
whenever the target chunk length `sample_rate * chunk_size_ms / 1000` is
at least 1 (otherwise Python raises `ValueError`) — concatenating the
chunks in order reproduces the buffer exactly, every chunk except
possibly the last has exactly the target length, and every chunk
(including the last) has at most the target length. -/
theorem chunk_audio_spec (audio_data : List Int) (chunk_size_ms sample_rate : Nat)
    (cs : List (List Int))
    (h : chunk_audio audio_data chunk_size_ms sample_rate = some cs) :
    cs.flatten = audio_data ∧
    (∀ c ∈ cs.dropLast, c.length = sample_rate * chunk_size_ms / 1000) ∧
    (∀ c ∈ cs, c.length ≤ sample_rate * chunk_size_ms / 1000) := by
  unfold chunk_audio at h
  by_cases hz : sample_rate * chunk_size_ms / 1000 = 0
  · simp [hz] at h
  · simp only [hz, if_false, Option.some.injEq] at h
    subst h
    refine ⟨chunkGo_flatten _ (by omega) _ _ le_rfl, ?_, ?_⟩
    · exact chunkGo_dropLast_length _ (by omega) _ _ le_rfl
    · exact chunkGo_mem_length_le _ _ _

/-- Witness for C3 (amended): a 2-sample-per-chunk split of a 3-sample
buffer. -/
theorem chunk_audio_spec_witness :
    chunk_audio [1, 2, 3] 1000 2 = some [[1, 2], [3]] ∧
    (([[1, 2], [3]] : List (List Int)).flatten = [1, 2, 3] ∧
     (∀ c ∈ ([[1, 2], [3]] : List (List Int)).dropLast, c.length = 2 * 1000 / 1000) ∧
     (∀ c ∈ ([[1, 2], [3]] : List (List Int)), c.length ≤ 2 * 1000 / 1000)) :=
  ⟨rfl, chunk_audio_spec [1, 2, 3] 1000 2 [[1, 2], [3]] rfl⟩

/-- C4 (confirmed): `resample_audio` returns its input bit-exactly (the
same list, with no resampling computation) whenever the source and target
rates coincide. -/
theorem resample_audio_identity (p : List Int) (r : Nat) :
    resample_audio p r r = p := by
  simp [resample_audio]

/-- C6 (counterexample): for an energy-strategy VAD that has processed one
chunk (so its energy history is the one-element list of that chunk's RMS
energy), `reset()` empties the energy history — it does not leave it
unchanged as the claim states. -/
theorem reset_discards_energy_history :
    ((process_energy (initVad .energy (1 / 2) 250 500 16000) 0 1).1).energy_history
        = [1] ∧
    (reset ((process_energy (initVad .energy (1 / 2) 250 500 16000) 0 1).1)).energy_history
        = [] := by
  constructor <;>
    norm_num [process_energy, initVad, update_state, energy_history_size, reset]

/-- C6 (amended): for the energy strategy, `reset()` clears the
speech/silence timers and the speech-started flag AND also discards the
accumulated energy history and the dynamic energy threshold (the code
explicitly re-initialises both when `method == 'energy'`). -/
theorem reset_energy_clears_everything (s : VadState) (h : s.method = .energy) :
    reset s = { s with speech_started := false
                       speech_start_time := none
                       last_speech_time := none
                       silence_start_time := none
                       energy_history := []
                       energy_threshold := none } := by
  simp [reset, h]

/-- Witness for C6 (amended) at a freshly constructed energy VAD. -/
theorem reset_energy_clears_everything_witness :
    (initVad .energy (1 / 2) 250 500 16000).method = .energy ∧
    reset (initVad .energy (1 / 2) 250 500 16000) =
      { (initVad .energy (1 / 2) 250 500 16000) with
          speech_started := false
          speech_start_time := none
          last_speech_time := none
          silence_start_time := none
          energy_history := []
          energy_threshold := none } :=
  ⟨rfl, reset_energy_clears_everything _ rfl⟩

/-- C10 (confirmed): after any sequence of `process_audio_chunk` calls
(equivalently, `_update_state` advances) from any starting state, if
`is_speech_started()` is false then `is_speech_ended()` is false at every
query time: the guard `if not self._speech_started: return False` makes
the speech-ended signal impossible before speech start is confirmed. -/
theorem speech_ended_requires_started (init : VadState) (tr : List (ℚ × ℚ))
    (t : ℚ) (h : is_speech_started (runTrace init tr) = false) :
    is_speech_ended (runTrace init tr) t = false := by
  unfold is_speech_started at h
  unfold is_speech_ended
  simp [h]

/-- Witness for C10 at a fresh VAD with an empty trace. -/
theorem speech_ended_requires_started_witness :
    is_speech_started (runTrace (initVad .silero (1 / 2) 250 500 16000) []) = false ∧
    is_speech_ended (runTrace (initVad .silero (1 / 2) 250 500 16000) []) 0 = false :=
  ⟨rfl, speech_ended_requires_started _ [] 0 rfl⟩

/-! ### Helper lemmas about `_update_state`. -/

lemma update_state_threshold (s : VadState) (t p : ℚ) :
    (update_state s t p).threshold = s.threshold := by
  unfold update_state
  (repeat' split) <;> rfl

lemma update_state_min_speech (s : VadState) (t p : ℚ) :
    (update_state s t p).min_speech_duration_ms = s.min_speech_duration_ms := by
  unfold update_state
  (repeat' split) <;> rfl

lemma runTrace_threshold (init : VadState) (tr : List (ℚ × ℚ)) :
    (runTrace init tr).threshold = init.threshold := by
  induction tr generalizing init with
  | nil => rfl
  | cons e es ih =>
      simp only [runTrace, List.foldl_cons] at *
      rw [ih, update_state_threshold]

lemma runTrace_min_speech (init : VadState) (tr : List (ℚ × ℚ)) :
    (runTrace init tr).min_speech_duration_ms = init.min_speech_duration_ms := by
  induction tr generalizing init with
  | nil => rfl
  | cons e es ih =>
      simp only [runTrace, List.foldl_cons] at *
      rw [ih, update_state_min_speech]

/-- An at-or-above-threshold chunk always nulls `silence_start_time`
(first statement of the speech branch of `_update_state`). -/
lemma update_state_speech_nulls_silence (s : VadState) (t p : ℚ)
    (h : s.threshold ≤ p) :
    (update_state s t p).silence_start_time = none := by
  unfold update_state
  rw [if_pos h]
  split
  · rfl
  · split
    · rfl
    · split <;> rfl

/-- The silence branch of `_update_state` in closed form. -/
lemma update_state_below_threshold (s : VadState) (t p : ℚ)
    (h : ¬ s.threshold ≤ p) :
    update_state s t p =
      if s.speech_started ∧ s.silence_start_time = none
      then { s with silence_start_time := some t }
      else s := by
  unfold update_state
  rw [if_neg h]

/-- The speech branch of `_update_state` before speech start, in closed
form. -/
lemma update_state_above_threshold (s : VadState) (t p : ℚ)
    (h : s.threshold ≤ p) (hns : s.speech_started = false) :
    update_state s t p =
      match s.speech_start_time with
      | none =>
          { s with last_speech_time := some t,
                   silence_start_time := none,
                   speech_start_time := some t }
      | some t0 =>
          if s.min_speech_duration_ms ≤ (t - t0) * 1000 then
            { s with last_speech_time := some t,
                     silence_start_time := none,
                     speech_started := true }
          else
            { s with last_speech_time := some t,
                     silence_start_time := none } := by
  unfold update_state
  rw [if_pos h, if_neg (by simp [hns])]

/-- Unfolding one trailing `_update_state` advance of a trace. -/
lemma runTrace_append_singleton (init : VadState) (es : List (ℚ × ℚ))
    (e : ℚ × ℚ) :
    runTrace init (es ++ [e]) = update_state (runTrace init es) e.1 e.2 := by
  simp [runTrace, List.foldl_append]

/-- C7 (confirmed): starting from any state with a null
`silence_start_time` (a fresh or reset VAD), after any sequence of
`process_audio_chunk` calls, `silence_start_time` is non-null only if
`speech_started` is true and the most recently processed chunk was below
the speech threshold; moreover, any further at-or-above-threshold chunk
sets `silence_start_time` back to null. -/
theorem silence_start_invariant (init : VadState) (tr : List (ℚ × ℚ))
    (h0 : init.silence_start_time = none) :
    (∀ ts, (runTrace init tr).silence_start_time = some ts →
        (runTrace init tr).speech_started = true ∧
        ∃ e, tr.getLast? = some e ∧ e.2 < init.threshold) ∧
    (∀ t p, init.threshold ≤ p →
        (update_state (runTrace init tr) t p).silence_start_time = none) := by
  constructor
  · induction tr using List.reverseRecOn with
    | nil =>
        intro ts hts
        simp only [runTrace, List.foldl_nil] at hts
        rw [h0] at hts
        exact absurd hts (by simp)
    | append_singleton es e ih =>
        intro ts hts
        rw [runTrace_append_singleton] at hts ⊢
        by_cases hp : (runTrace init es).threshold ≤ e.2
        · rw [update_state_speech_nulls_silence _ _ _ hp] at hts
          exact absurd hts (by simp)
        · have hth : (runTrace init es).threshold = init.threshold :=
            runTrace_threshold init es
          rw [update_state_below_threshold _ _ _ hp] at hts ⊢
          split at hts
          · rename_i hcond
            rw [if_pos hcond]
            refine ⟨hcond.1, e, by simp, ?_⟩
            rw [← hth]
            exact lt_of_not_le hp
          · rename_i hcond
            rw [if_neg hcond]
            obtain ⟨hstart, -⟩ := ih ts hts
            refine ⟨hstart, e, by simp, ?_⟩
            rw [← hth]
            exact lt_of_not_le hp
  · intro t p hp
    exact update_state_speech_nulls_silence _ _ _
      (by rw [runTrace_threshold]; exact hp)

/-- Witness for C7: a trace that confirms speech and then goes silent,
leaving `silence_start_time` set at the final silent chunk. -/
theorem silence_start_invariant_witness :
    (initVad .silero (1 / 2) 250 700 16000).silence_start_time = none ∧
    ((runTrace (initVad .silero (1 / 2) 250 700 16000)
        [(0, 1), (1, 1), (2, 0)]).speech_started = true ∧
      ∃ e, ([(0, 1), (1, 1), (2, 0)] : List (ℚ × ℚ)).getLast? = some e ∧
        e.2 < (initVad .silero (1 / 2) 250 700 16000).threshold) :=
  ⟨rfl,
    (silence_start_invariant (initVad .silero (1 / 2) 250 700 16000)
        [(0, 1), (1, 1), (2, 0)] rfl).1 2
      (by norm_num [runTrace, update_state, initVad])⟩

/-- C8 (counterexample): feed a fresh VAD (threshold 0.5,
`min_speech_duration_ms = 250`) one above-threshold chunk at t = 0 s,
nine below-threshold chunks at t = 1..9 s, and one above-threshold chunk
at t = 10 s. Only two chunks are at/above threshold — with any real
chunk duration well under 125 ms, far less total speech than 250 ms —
yet `is_speech_started()` becomes true, because the code measures the
wall-clock distance to the first above-threshold chunk since reset and
never clears `_speech_start_time` during pre-confirmation silence. -/
theorem vad_debounce_counterexample :
    (([(0, 1), (1, 0), (2, 0), (3, 0), (4, 0), (5, 0), (6, 0), (7, 0),
        (8, 0), (9, 0), (10, 1)] : List (ℚ × ℚ)).filter
          fun e => decide ((1 : ℚ) / 2 ≤ e.2)).length = 2 ∧
    is_speech_started (runTrace (initVad .silero (1 / 2) 250 500 16000)
        [(0, 1), (1, 0), (2, 0), (3, 0), (4, 0), (5, 0), (6, 0), (7, 0),
         (8, 0), (9, 0), (10, 1)]) = true := by
  constructor
  · norm_num
  · norm_num [is_speech_started, runTrace, update_state, initVad]

/-- C8 (amended): if every pair of at-or-above-threshold chunks in the
trace is separated by less than `min_speech_duration_ms` (in particular,
if all above-threshold chunks fall inside one window shorter than
`min_speech_duration_ms`), then a fresh or reset VAD never confirms
speech start. (The unamended claim — bounding only the summed duration
of above-threshold chunks — fails because `_speech_start_time` is not
cleared during silence before confirmation; see the counterexample.) -/
theorem vad_debounce_window (init : VadState) (tr : List (ℚ × ℚ))
    (h1 : init.speech_started = false) (h2 : init.speech_start_time = none)
    (hspan : ∀ e ∈ tr, ∀ e2 ∈ tr, init.threshold ≤ e.2 →
        init.threshold ≤ e2.2 →
        (e2.1 - e.1) * 1000 < init.min_speech_duration_ms) :
    (runTrace init tr).speech_started = false := by
  have main : ∀ tr2 : List (ℚ × ℚ),
      (∀ e ∈ tr2, ∀ e2 ∈ tr2, init.threshold ≤ e.2 → init.threshold ≤ e2.2 →
        (e2.1 - e.1) * 1000 < init.min_speech_duration_ms) →
      ((runTrace init tr2).speech_started = false ∧
       ∀ t0, (runTrace init tr2).speech_start_time = some t0 →
         ∃ p0, (t0, p0) ∈ tr2 ∧ init.threshold ≤ p0) := by
    intro tr2
    induction tr2 using List.reverseRecOn with
    | nil =>
        intro _
        refine ⟨h1, fun t0 ht0 => ?_⟩
        simp only [runTrace, List.foldl_nil] at ht0
        rw [h2] at ht0
        exact absurd ht0 (by simp)
    | append_singleton es e ih =>
        intro hspan2
        have hspan_es : ∀ a ∈ es, ∀ b ∈ es, init.threshold ≤ a.2 →
            init.threshold ≤ b.2 →
            (b.1 - a.1) * 1000 < init.min_speech_duration_ms := by
          intro a ha b hb
          exact hspan2 a (List.mem_append_left _ ha) b (List.mem_append_left _ hb)
        obtain ⟨ihs, ihw⟩ := ih hspan_es
        have hth : (runTrace init es).threshold = init.threshold :=
          runTrace_threshold init es
        have hms : (runTrace init es).min_speech_duration_ms
            = init.min_speech_duration_ms := runTrace_min_speech init es
        rw [runTrace_append_singleton]
        by_cases hp : (runTrace init es).threshold ≤ e.2
        · rw [update_state_above_threshold _ _ _ hp ihs]
          cases hsp : (runTrace init es).speech_start_time with
          | none =>
              simp only []
              refine ⟨ihs, fun t1 ht1 => ?_⟩
              have ht1e : some e.1 = some t1 := ht1
              injection ht1e with ht1e2
              subst ht1e2
              exact ⟨e.2, List.mem_append_right _ (by simp),
                by rw [← hth]; exact hp⟩
          | some t0 =>
              simp only []
              obtain ⟨p0, hmem0, hp0⟩ := ihw t0 hsp
              have hlt : (e.1 - t0) * 1000 < init.min_speech_duration_ms :=
                hspan2 (t0, p0) (List.mem_append_left _ hmem0) e
                  (List.mem_append_right _ (by simp)) hp0
                  (by rw [← hth]; exact hp)
              rw [if_neg (by rw [hms]; exact not_le.mpr hlt)]
              refine ⟨ihs, fun t1 ht1 => ?_⟩
              have ht1e : some t0 = some t1 := ht1
              injection ht1e with ht1e2
              subst ht1e2
              exact ⟨p0, List.mem_append_left _ hmem0, hp0⟩
        · rw [update_state_below_threshold _ _ _ hp]
          split
          · refine ⟨ihs, fun t0 ht0 => ?_⟩
            obtain ⟨p0, hmem0, hp0⟩ := ihw t0 ht0
            exact ⟨p0, List.mem_append_left _ hmem0, hp0⟩
          · refine ⟨ihs, fun t0 ht0 => ?_⟩
            obtain ⟨p0, hmem0, hp0⟩ := ihw t0 ht0
            exact ⟨p0, List.mem_append_left _ hmem0, hp0⟩
  exact (main tr hspan).1

/-! ### Helper lemmas for the mu-law round-trip bound (C2). -/

set_option maxHeartbeats 1000000 in
lemma ulawCode_seg (p s : Nat) (hs : s < 8) (hlo : 32 * 2 ^ s ≤ p)
    (hhi : p < 64 * 2 ^ s) :
    ulawCode p = s * 16 + p / (2 * 2 ^ s) % 16 := by
  interval_cases s <;> simp only [ulawCode] <;> split_ifs <;> omega

/-- Decoding an uncomplemented non-negative code word `s * 16 + q`
(transmitted as its `0xFF`-complement). -/
lemma st_ulaw2linear16_eq_pos (s q : Nat) (hs : s < 8) (hq : q < 16) :
    st_ulaw2linear16 (255 - (s * 16 + q)) = ((q : ℤ) * 8 + 132) * 2 ^ s - 132 := by
  simp only [st_ulaw2linear16]
  rw [show (255 - (s * 16 + q)) % 256 = 255 - (s * 16 + q) from by omega]
  rw [show 255 - (255 - (s * 16 + q)) = s * 16 + q from by omega]
  rw [show ((s * 16 + q : ℕ) : ℤ) % 16 = (q : ℤ) from by omega]
  rw [show (s * 16 + q) / 16 % 8 = s from by omega]
  rw [if_neg (by omega : ¬ 128 ≤ s * 16 + q)]

/-- Decoding an uncomplemented negative code word `s * 16 + q`
(transmitted as its `0x7F`-complement). -/
lemma st_ulaw2linear16_eq_neg (s q : Nat) (hs : s < 8) (hq : q < 16) :
    st_ulaw2linear16 (127 - (s * 16 + q)) = 132 - ((q : ℤ) * 8 + 132) * 2 ^ s := by
  simp only [st_ulaw2linear16]
  rw [show (127 - (s * 16 + q)) % 256 = 127 - (s * 16 + q) from by omega]
  rw [show 255 - (127 - (s * 16 + q)) = 128 + (s * 16 + q) from by omega]
  rw [show ((128 + (s * 16 + q) : ℕ) : ℤ) % 16 = (q : ℤ) from by omega]
  rw [show (128 + (s * 16 + q)) / 16 % 8 = s from by omega]
  rw [if_pos (by omega : 128 ≤ 128 + (s * 16 + q))]

/-- Within one mu-law segment (`32 * t ≤ p < 64 * t` for `t = 2 ^ s`),
the decoded biased magnitude equals `4 * (p - 33)` up to a quantization
offset `d` with `|d| ≤ 4 * t`. -/
lemma seg_code_val (t p : Nat) (ht : 1 ≤ t) (hlo : 32 * t ≤ p)
    (hhi : p < 64 * t) :
    ∃ d : Int, (((p / (2 * t) % 16 : ℕ) : ℤ) * 8 + 132) * (t : ℤ) - 132
        = 4 * ((p : ℤ) - 33) + d ∧ -(4 * (t : ℤ)) < d ∧ d ≤ 4 * (t : ℤ) := by
  have h2t : 0 < 2 * t := by omega
  have hdm := Nat.div_add_mod p (2 * t)
  set k := p / (2 * t) with hk
  set r := p % (2 * t) with hr
  have hrlt : r < 2 * t := Nat.mod_lt _ h2t
  have hk1 : 16 ≤ k := by
    rw [hk]
    exact (Nat.le_div_iff_mul_le h2t).mpr (by omega)
  have hk2 : k < 32 := by
    rw [hk]
    exact (Nat.div_lt_iff_lt_mul h2t).mpr (by omega)
  have hmod : k % 16 = k - 16 := by omega
  refine ⟨4 * (t : ℤ) - 4 * (r : ℤ), ?_, by omega, by omega⟩
  have hpz : (p : ℤ) = 2 * t * k + r := by exact_mod_cast hdm.symm
  rw [hmod]
  have hc : ((k - 16 : ℕ) : ℤ) = (k : ℤ) - 16 := by
    push_cast [hk1]
    ring
  rw [hc]
  linear_combination (-4 : ℤ) * hpz

/-- Every biased magnitude in `[33, 8191]` lies in exactly one mu-law
segment. -/
lemma seg_exists (p : Nat) (hlo : 33 ≤ p) (hhi : p ≤ 8191) :
    ∃ s : Nat, s < 8 ∧ 32 * 2 ^ s ≤ p ∧ p < 64 * 2 ^ s := by
  by_cases h1 : p ≤ 63
  · refine ⟨0, by norm_num, ?_, ?_⟩ <;> norm_num <;> omega
  by_cases h2 : p ≤ 127
  · refine ⟨1, by norm_num, ?_, ?_⟩ <;> norm_num <;> omega
  by_cases h3 : p ≤ 255
  · refine ⟨2, by norm_num, ?_, ?_⟩ <;> norm_num <;> omega
  by_cases h4 : p ≤ 511
  · refine ⟨3, by norm_num, ?_, ?_⟩ <;> norm_num <;> omega
  by_cases h5 : p ≤ 1023
  · refine ⟨4, by norm_num, ?_, ?_⟩ <;> norm_num <;> omega
  by_cases h6 : p ≤ 2047
  · refine ⟨5, by norm_num, ?_, ?_⟩ <;> norm_num <;> omega
  by_cases h7 : p ≤ 4095
  · refine ⟨6, by norm_num, ?_, ?_⟩ <;> norm_num <;> omega
  refine ⟨7, by norm_num, ?_, ?_⟩ <;> norm_num <;> omega

/-- Per-sample mu-law round-trip error bound: encoding a 16-bit sample
and decoding it back lands within 644 of the original (the worst case,
644, is attained at -32768; within unclipped segments the error is below
512 + 4). -/
theorem mulaw_roundtrip_sample (x : Int) (hx1 : -32768 ≤ x)
    (hx2 : x ≤ 32767) :
    (st_ulaw2linear16 (st_14linear2ulaw (Int.ediv x 4)) - x).natAbs ≤ 644 := by
  set v : Int := Int.ediv x 4 with hv
  have h4 : (4 : ℤ) * v + Int.emod x 4 = x := by
    rw [hv]
    exact Int.ediv_add_emod x 4
  have h5 : 0 ≤ Int.emod x 4 := Int.emod_nonneg x (by norm_num)
  have h6 : Int.emod x 4 < 4 := Int.emod_lt_of_pos x (by norm_num)
  rcases le_or_lt 0 v with hpos | hneg
  · simp only [st_14linear2ulaw, if_neg (not_lt.mpr hpos)]
    by_cases hclip : 8159 ≤ v
    · rw [show (if 8159 < v then (8159 : ℤ) else v) = 8159 from by
        split_ifs <;> omega]
      rw [show ((8159 : ℤ) + 33).toNat = 8192 from by omega]
      rw [show ulawCode 8192 = 127 from by decide]
      rw [show st_ulaw2linear16 (255 - 127) = 32124 from by decide]
      omega
    · rw [show (if 8159 < v then (8159 : ℤ) else v) = v from by
        split_ifs <;> omega]
      set p : Nat := (v + 33).toNat with hpdef
      have hp1 : 33 ≤ p := by omega
      have hp2 : p ≤ 8191 := by omega
      have hpz : (p : ℤ) = v + 33 := by omega
      obtain ⟨s, hs8, hlo, hhi⟩ := seg_exists p hp1 hp2
      rw [ulawCode_seg p s hs8 hlo hhi]
      rw [st_ulaw2linear16_eq_pos s (p / (2 * 2 ^ s) % 16) hs8
        (Nat.mod_lt _ (by positivity))]
      rw [show ((2 : ℤ) ^ s) = ((2 ^ s : ℕ) : ℤ) from by push_cast; ring]
      obtain ⟨d, hdeq, hd1, hd2⟩ := seg_code_val (2 ^ s) p Nat.one_le_two_pow
        hlo hhi
      rw [hdeq]
      have ht128 : (2 : ℕ) ^ s ≤ 128 := by
        calc (2 : ℕ) ^ s ≤ 2 ^ 7 := Nat.pow_le_pow_right (by norm_num) (by omega)
        _ = 128 := by norm_num
      omega
  · simp only [st_14linear2ulaw, if_pos hneg]
    by_cases hclip : 8159 ≤ -v
    · rw [show (if 8159 < -v then (8159 : ℤ) else -v) = 8159 from by
        split_ifs <;> omega]
      rw [show ((8159 : ℤ) + 33).toNat = 8192 from by omega]
      rw [show ulawCode 8192 = 127 from by decide]
      rw [show st_ulaw2linear16 (127 - 127) = -32124 from by decide]
      omega
    · rw [show (if 8159 < -v then (8159 : ℤ) else -v) = -v from by
        split_ifs <;> omega]
      set p : Nat := (-v + 33).toNat with hpdef
      have hp1 : 33 ≤ p := by omega
      have hp2 : p ≤ 8191 := by omega
      have hpz : (p : ℤ) = -v + 33 := by omega
      obtain ⟨s, hs8, hlo, hhi⟩ := seg_exists p hp1 hp2
      rw [ulawCode_seg p s hs8 hlo hhi]
      rw [st_ulaw2linear16_eq_neg s (p / (2 * 2 ^ s) % 16) hs8
        (Nat.mod_lt _ (by positivity))]
      rw [show ((2 : ℤ) ^ s) = ((2 ^ s : ℕ) : ℤ) from by push_cast; ring]
      obtain ⟨d, hdeq, hd1, hd2⟩ := seg_code_val (2 ^ s) p Nat.one_le_two_pow
        hlo hhi
      have hneg2 : (132 : ℤ) - (((p / (2 * 2 ^ s) % 16 : ℕ) : ℤ) * 8 + 132) * ((2 ^ s : ℕ) : ℤ)
          = -(4 * ((p : ℤ) - 33) + d) + 0 := by linear_combination -hdeq
      rw [hneg2]
      have ht128 : (2 : ℕ) ^ s ≤ 128 := by
        calc (2 : ℕ) ^ s ≤ 2 ^ 7 := Nat.pow_le_pow_right (by norm_num) (by omega)
        _ = 128 := by norm_num
      omega

/-- Pointwise bound for a whole buffer, from the per-sample bound. -/
lemma mulaw_roundtrip_forall (l : List Int)
    (hl : ∀ x ∈ l, -32768 ≤ x ∧ x ≤ 32767) :
    List.Forall₂ (fun a b => (a - b).natAbs ≤ 644)
      (l.map fun x => st_ulaw2linear16 (st_14linear2ulaw (Int.ediv x 4))) l := by
  induction l with
  | nil => simp
  | cons x xs ih =>
      simp only [List.map_cons]
      exact List.Forall₂.cons
        (mulaw_roundtrip_sample x (hl x (by simp)).1 (hl x (by simp)).2)
        (ih fun y hy => hl y (by simp [hy]))

/-- C2 (counterexample): at the one-sample 8 kHz buffer `[32767]`, the
mu-law round trip returns `[32124]`, an absolute error of 643 > 256; the
claimed 256 tolerance fails at the clipped top of the 16-bit range. -/
theorem mulaw_roundtrip_256_counterexample :
    convert_from_mulaw (convert_to_mulaw [32767] 8000 8000) 8000 = [32124] ∧
    256 < ((32124 : ℤ) - 32767).natAbs := by
  constructor
  · decide
  · decide

/-- C2 (amended): for every 16-bit signed PCM buffer already at 8000 Hz,
the mu-law round trip at target rate 8000 preserves the length and every
decoded sample is within 644 of the original (644 is attained at -32768;
256 is exceeded only near the clipped extremes, see the counterexample). -/
theorem mulaw_roundtrip_bound (p : List Int)
    (hp : ∀ x ∈ p, -32768 ≤ x ∧ x ≤ 32767) :
    (convert_from_mulaw (convert_to_mulaw p 8000 8000) 8000).length = p.length ∧
    List.Forall₂ (fun a b => (a - b).natAbs ≤ 644)
      (convert_from_mulaw (convert_to_mulaw p 8000 8000) 8000) p := by
  have hcv : convert_from_mulaw (convert_to_mulaw p 8000 8000) 8000
      = p.map fun x => st_ulaw2linear16 (st_14linear2ulaw (Int.ediv x 4)) := by
    simp [convert_to_mulaw, convert_from_mulaw, lin2ulaw, ulaw2lin,
      List.map_map]
  rw [hcv]
  exact ⟨by simp, mulaw_roundtrip_forall p hp⟩

/-- Witness for C2 (amended) on a four-sample buffer covering zero, both
extremes and a mid-range value. -/
theorem mulaw_roundtrip_bound_witness :
    (∀ x ∈ ([0, 32767, -32768, 1000] : List Int), -32768 ≤ x ∧ x ≤ 32767) ∧
    ((convert_from_mulaw (convert_to_mulaw [0, 32767, -32768, 1000] 8000 8000) 8000).length
        = ([0, 32767, -32768, 1000] : List Int).length ∧
      List.Forall₂ (fun a b => (a - b).natAbs ≤ 644)
        (convert_from_mulaw (convert_to_mulaw [0, 32767, -32768, 1000] 8000 8000) 8000)
        [0, 32767, -32768, 1000]) :=
  ⟨by decide, mulaw_roundtrip_bound [0, 32767, -32768, 1000] (by decide)⟩

/-- Witness for C8 (amended): two above-threshold chunks 10 ms apart,
well inside the 250 ms debounce window — speech start is not confirmed. -/
theorem vad_debounce_window_witness :
    (initVad .silero (1 / 2) 250 500 16000).speech_started = false ∧
    (initVad .silero (1 / 2) 250 500 16000).speech_start_time = none ∧
    (runTrace (initVad .silero (1 / 2) 250 500 16000)
        [(0, 1), (1 / 100, 1)]).speech_started = false :=
  ⟨rfl, rfl,
    vad_debounce_window (initVad .silero (1 / 2) 250 500 16000)
      [(0, 1), (1 / 100, 1)] rfl rfl
      (by
        intro e he e2 he2 hpe hpe2
        fin_cases he <;> fin_cases he2 <;> norm_num [initVad])⟩

/-! ### Helper lemmas for base64 framing (C5). -/

lemma b64Table_encChar : ∀ v : Nat, v < 64 → b64Table (encChar v) = some v := by
  decide

lemma encChar_ne_pad : ∀ v : Nat, v < 64 → encChar v ≠ 61 := by
  decide

/-- Decoding inverts encoding, for any pending decoder state at quad
position 0. -/
lemma a2b_b2a : ∀ (bs : List Nat), (∀ b ∈ bs, b < 256) → ∀ lc pd : Nat,
    ∀ out : List Nat, a2bLoop (b2aLoop bs) ⟨0, lc, pd, out⟩ = .ok (out ++ bs)
  | [] => by
      intro _ lc pd out
      simp [b2aLoop, a2bLoop]
  | [a] => by
      intro h lc pd out
      have ha : a < 256 := h a (by simp)
      have h1 : a / 4 < 64 := by omega
      have h2 : a % 4 * 16 < 64 := by omega
      simp only [b2aLoop, a2bLoop, b64Table_encChar _ h1, b64Table_encChar _ h2,
        encChar_ne_pad _ h1, encChar_ne_pad _ h2, if_false]
      norm_num
      omega
  | [a, b] => by
      intro h lc pd out
      have ha : a < 256 := h a (by simp)
      have hb : b < 256 := h b (by simp)
      have h1 : a / 4 < 64 := by omega
      have h2 : a % 4 * 16 + b / 16 < 64 := by omega
      have h3 : b % 16 * 4 < 64 := by omega
      simp only [b2aLoop, a2bLoop, b64Table_encChar _ h1, b64Table_encChar _ h2,
        b64Table_encChar _ h3, encChar_ne_pad _ h1, encChar_ne_pad _ h2,
        encChar_ne_pad _ h3, if_false]
      norm_num
      omega
  | a :: b :: c :: rest => by
      intro h lc pd out
      have ha : a < 256 := h a (by simp)
      have hb : b < 256 := h b (by simp)
      have hc : c < 256 := h c (by simp)
      have h1 : a / 4 < 64 := by omega
      have h2 : a % 4 * 16 + b / 16 < 64 := by omega
      have h3 : b % 16 * 4 + c / 64 < 64 := by omega
      have h4 : c % 64 < 64 := by omega
      have ih := a2b_b2a rest (fun y hy => h y (by simp [hy]))
      simp only [b2aLoop, a2bLoop, b64Table_encChar _ h1, b64Table_encChar _ h2,
        b64Table_encChar _ h3, b64Table_encChar _ h4, encChar_ne_pad _ h1,
        encChar_ne_pad _ h2, encChar_ne_pad _ h3, encChar_ne_pad _ h4, if_false]
      rw [ih]
      have e1 : lc * 4 % 16 * 16 / 16 = lc * 4 % 16 := by omega
      rw [show a / 4 * 4 + (a % 4 * 16 + b / 16) / 16 = a from by omega]
      rw [show (a % 4 * 16 + b / 16) % 16 = b / 16 from by omega]
      rw [show b / 16 * 16 + (b % 16 * 4 + c / 64) / 4 = b from by omega]
      rw [show (b % 16 * 4 + c / 64) % 4 = c / 64 from by omega]
      rw [show c / 64 * 64 + c % 64 = c from by omega]
      simp

/-- Whether non-strict base64 decoding errors depends only on the shape
of the character stream: it matches the quad-position shadow machine. -/
lemma a2b_err_iff : ∀ (s : List Nat) (q lc pd : Nat) (out : List Nat),
    q < 4 →
    ((∃ e, a2bLoop s ⟨q, lc, pd, out⟩ = .error e) ↔ b64ErrCond s q pd = true) := by
  intro s
  induction s with
  | nil =>
      intro q lc pd out hq
      rcases (by omega : q = 0 ∨ q = 1 ∨ q = 2 ∨ q = 3) with h | h | h | h <;>
        subst h <;> simp [a2bLoop, b64ErrCond]
  | cons c cs ih =>
      intro q lc pd out hq
      by_cases hpad : c = 61
      · subst hpad
        by_cases hcond : 2 ≤ q ∧ 4 ≤ q + (pd + 1)
        · simp [a2bLoop, b64ErrCond, hcond]
        · simp only [a2bLoop, b64ErrCond, if_pos rfl, if_neg hcond]
          exact ih q lc (pd + 1) out hq
      · cases ht : b64Table c with
        | none =>
            simp only [a2bLoop, b64ErrCond, if_neg hpad, ht]
            exact ih q lc pd out hq
        | some v =>
            rcases (by omega : q = 0 ∨ q = 1 ∨ q = 2 ∨ q = 3) with h | h | h | h <;>
              subst h <;> simp only [a2bLoop, b64ErrCond, if_neg hpad, ht] <;>
              [exact ih 1 v 0 out (by omega);
               exact ih 2 (v % 16) 0 (out ++ [lc * 4 + v / 16]) (by omega);
               exact ih 3 (v % 4) 0 (out ++ [lc * 16 + v / 4]) (by omega);
               exact ih 0 0 0 (out ++ [lc * 64 + v]) (by omega)]

/-! ### Claim theorems for transport framing (C5). -/

/-- C5 (counterexample): the empty string decodes to zero bytes and the
claim therefore requires a `MalformedFrameError`; the code instead
returns the empty byte string successfully (`base64.b64decode(b'') ==
b''`, and no `MalformedFrameError` type exists in the repository). -/
theorem decode_zero_bytes_succeeds :
    decode_mulaw_base64 [] = .ok [] := rfl

/-- C5 (amended): `decode_mulaw_base64` is Python's non-strict
`b64decode`: (1) it is a left inverse of `encode_mulaw_base64`, so every
valid base64 text decodes to its bytes; (2) characters outside the
base64 alphabet (e.g. `'!!!'`) are skipped, not rejected; (3) failures
do occur (as `binascii.Error`, not a `MalformedFrameError`), e.g. on the
lone data character `'Q'`; and (4) failure happens exactly when the
quad/padding shadow machine `b64ErrCond` rejects the character stream —
an incomplete trailing quad — independently of the decoded bytes; inputs
decoding to zero bytes succeed. -/
theorem decode_mulaw_base64_spec :
    (∀ bs : List Nat, (∀ b ∈ bs, b < 256) →
        decode_mulaw_base64 (encode_mulaw_base64 bs) = .ok bs) ∧
    decode_mulaw_base64 [33, 33, 33] = .ok [] ∧
    (∃ e, decode_mulaw_base64 [81] = .error e) ∧
    (∀ s : List Nat,
        (∃ e, decode_mulaw_base64 s = .error e) ↔ b64ErrCond s 0 0 = true) := by
  refine ⟨?_, rfl, ⟨"invalid base64 length", rfl⟩, ?_⟩
  · intro bs h
    have := a2b_b2a bs h 0 0 []
    simpa [encode_mulaw_base64, decode_mulaw_base64, b64decode] using this
  · intro s
    exact a2b_err_iff s 0 0 0 [] (by omega)

/-- Witness for C5 (amended): a three-byte buffer round-trips. -/
theorem decode_mulaw_base64_spec_witness :
    (∀ b ∈ ([0, 255, 77] : List Nat), b < 256) ∧
    decode_mulaw_base64 (encode_mulaw_base64 [0, 255, 77]) = .ok [0, 255, 77] :=
  ⟨by decide, decode_mulaw_base64_spec.1 [0, 255, 77] (by decide)⟩

/-! ### Claim theorems for the inbound pumps (C1, C9). -/

/-- C1 (counterexample): a started session whose VAD has not confirmed
speech receives one valid media frame (payload `"/w=="`, one mu-law
byte); after handling it the VAD still reports no speech start, yet the
decoded (and resampled) PCM sits in the STT audio buffer — the frame was
appended, not discarded, contradicting the claim that pre-speech-start
chunks are kept out of the STT buffer. -/
theorem pre_speech_audio_buffered_counterexample :
    is_speech_started
        ((handleMedia (fun _ => 0) 0
            { initialCallState with vad := some (freshServerVad .silero) }
            [47, 119, 61, 61]).vad.getD (freshServerVad .silero)) = false ∧
    (handleMedia (fun _ => 0) 0
        { initialCallState with vad := some (freshServerVad .silero) }
        [47, 119, 61, 61]).audio_buffer = [0, 0] := by
  constructor <;> decide

/-- C1 (amended): every media frame whose base64 payload decodes
successfully has its full decoded-and-resampled PCM appended to the STT
audio buffer unconditionally — before as well as after
`is_speech_started()` — and when the frame triggers `is_speech_ended()`
the dispatched utterance is the whole buffer including that pre-speech
audio (the buffer is then cleared for the next turn). -/
theorem media_chunk_always_buffered (probOf : List Int → ℚ) (now : ℚ)
    (st : CallState) (vad0 : VadState) (payload mulaw : List Nat)
    (hvad : st.vad = some vad0)
    (hdec : b64decode payload = .ok mulaw) :
    ((handleMedia probOf now st payload).audio_buffer
        = st.audio_buffer ++ resample_audio
            (convert_from_mulaw mulaw TWILIO_SAMPLE_RATE)
            TWILIO_SAMPLE_RATE VAD_SAMPLE_RATE ∧
      (handleMedia probOf now st payload).processed_turns
        = st.processed_turns) ∨
    ((handleMedia probOf now st payload).audio_buffer = [] ∧
      (handleMedia probOf now st payload).processed_turns
        = st.processed_turns ++ [st.audio_buffer ++ resample_audio
            (convert_from_mulaw mulaw TWILIO_SAMPLE_RATE)
            TWILIO_SAMPLE_RATE VAD_SAMPLE_RATE]) := by
  unfold handleMedia
  rw [hvad, hdec]
  simp only []
  rw [if_pos (by norm_num [TWILIO_SAMPLE_RATE, VAD_SAMPLE_RATE] :
    TWILIO_SAMPLE_RATE ≠ VAD_SAMPLE_RATE)]
  split
  · exact Or.inr ⟨rfl, rfl⟩
  · exact Or.inl ⟨rfl, rfl⟩

/-- Witness for C1 (amended) at the counterexample's session and frame. -/
theorem media_chunk_always_buffered_witness :
    ({ initialCallState with vad := some (freshServerVad .silero) } : CallState).vad
        = some (freshServerVad .silero) ∧
    b64decode [47, 119, 61, 61] = .ok [255] ∧
    (((handleMedia (fun _ => 0) 0
          { initialCallState with vad := some (freshServerVad .silero) }
          [47, 119, 61, 61]).audio_buffer
        = ({ initialCallState with vad := some (freshServerVad .silero) }
            : CallState).audio_buffer ++ resample_audio
            (convert_from_mulaw [255] TWILIO_SAMPLE_RATE)
            TWILIO_SAMPLE_RATE VAD_SAMPLE_RATE ∧
      (handleMedia (fun _ => 0) 0
          { initialCallState with vad := some (freshServerVad .silero) }
          [47, 119, 61, 61]).processed_turns
        = ({ initialCallState with vad := some (freshServerVad .silero) }
            : CallState).processed_turns) ∨
    ((handleMedia (fun _ => 0) 0
          { initialCallState with vad := some (freshServerVad .silero) }
          [47, 119, 61, 61]).audio_buffer = [] ∧
      (handleMedia (fun _ => 0) 0
          { initialCallState with vad := some (freshServerVad .silero) }
          [47, 119, 61, 61]).processed_turns
        = ({ initialCallState with vad := some (freshServerVad .silero) }
            : CallState).processed_turns ++
          [({ initialCallState with vad := some (freshServerVad .silero) }
              : CallState).audio_buffer ++ resample_audio
              (convert_from_mulaw [255] TWILIO_SAMPLE_RATE)
              TWILIO_SAMPLE_RATE VAD_SAMPLE_RATE])) :=
  ⟨rfl, rfl,
    media_chunk_always_buffered (fun _ => 0) 0
      { initialCallState with vad := some (freshServerVad .silero) }
      (freshServerVad .silero) [47, 119, 61, 61] [255] rfl rfl⟩

/-- C9 (counterexample): in the realtime bridge's Twilio-to-ElevenLabs
pump, a malformed media payload (`'Q'`, an incomplete base64 quad) is
decoded outside any try/except; the resulting exception terminates the
pump, and the following valid media frame is never processed — the pump
does not "drop the single frame and continue" in this bridge variant. -/
theorem realtime_pump_dies_on_malformed_frame :
    realtimePump rtInit
        [TwilioEvent.media [81], TwilioEvent.media [47, 119, 61, 61]]
      = .error "invalid base64 length" ∧
    ¬ ∃ stF, realtimePump rtInit
        [TwilioEvent.media [81], TwilioEvent.media [47, 119, 61, 61]]
      = .ok stF := by
  refine ⟨rfl, ?_⟩
  rintro ⟨stF, h⟩
  rw [show realtimePump rtInit
      [TwilioEvent.media [81], TwilioEvent.media [47, 119, 61, 61]]
      = .error "invalid base64 length" from rfl] at h
  simp at h

/-- C9 (amended): in `TwilioVoiceServer.handle_call` a media frame whose
base64 decode fails is dropped with the session state unchanged and the
pump continues — processing the remaining events exactly as if the bad
frame had never arrived; the realtime bridge variant, by contrast, has
no per-frame error handling and its pump terminates with the decode
exception at the first malformed frame. -/
theorem malformed_frame_handling (probOf : List Int → ℚ) (now : ℚ)
    (method : VadMethod) (st : CallState) (stopped : Bool)
    (bst : BridgeState) (payload : List Nat) (e : String)
    (evs : List TwilioEvent)
    (hdec : b64decode payload = .error e) :
    handleMedia probOf now st payload = st ∧
    twilioPump probOf now method (st, stopped)
        (TwilioEvent.media payload :: evs)
      = twilioPump probOf now method (st, stopped) evs ∧
    realtimePump bst (TwilioEvent.media payload :: evs) = .error e := by
  have h1 : handleMedia probOf now st payload = st := by
    unfold handleMedia
    cases hv : st.vad with
    | none => rfl
    | some v =>
        rw [hdec]
  refine ⟨h1, ?_, ?_⟩
  · simp only [twilioPump, List.foldl_cons, handleEvent]
    cases stopped with
    | true => simp
    | false => simp [h1]
  · simp only [realtimePump, rtStep, hdec]

/-- Witness for C9 (amended) on the malformed payload `'Q'` followed by
one valid frame. -/
theorem malformed_frame_handling_witness :
    b64decode [81] = .error "invalid base64 length" ∧
    (handleMedia (fun _ => 0) 0 initialCallState [81] = initialCallState ∧
     twilioPump (fun _ => 0) 0 .silero (initialCallState, false)
        [TwilioEvent.media [81], TwilioEvent.media [47, 119, 61, 61]]
       = twilioPump (fun _ => 0) 0 .silero (initialCallState, false)
        [TwilioEvent.media [47, 119, 61, 61]] ∧
     realtimePump rtInit
        [TwilioEvent.media [81], TwilioEvent.media [47, 119, 61, 61]]
       = .error "invalid base64 length") :=
  ⟨rfl,
    malformed_frame_handling (fun _ => 0) 0 .silero initialCallState false
      rtInit [81] "invalid base64 length" [TwilioEvent.media [47, 119, 61, 61]]
      rfl⟩

end CxcBridge
